import Mathlib

/-!
# Verification of the math3 3D linear-algebra library

Shallow embedding of `src/math3.js` over the exact real numbers `ℝ`
(JavaScript numbers are modelled as reals; floating-point rounding is
abstracted away, so "within floating tolerance" statements become exact
equalities over `ℝ`).

Vectors are the record `{x, y, z}` produced by `v3`; matrices are the
record of three row vectors `{x, y, z}` produced by `m3x3`, with
`row[0] = x`, `row[1] = y`, `row[2] = z` as in the data model.
-/

open Real

/-- A 3D vector of three numbers X, Y, Z.  Embeds the object
`{x, y, z}` built by `v3` (src/math3.js lines 18–25). -/
@[ext] structure V3 where
  x : ℝ
  y : ℝ
  z : ℝ

/-- `v3(nx, ny, nz)` (src/math3.js lines 18–25).  `Number(...)` coercion is
the identity on numeric input, which is all the embedding models. -/
def v3 (nx ny nz : ℝ) : V3 :=
  ⟨nx, ny, nz⟩

/-- `v3_add` (src/math3.js lines 47–54): componentwise sum. -/
def v3_add (vl vr : V3) : V3 :=
  v3 (vl.x + vr.x) (vl.y + vr.y) (vl.z + vr.z)

/-- `v3_sub` (src/math3.js lines 64–71): componentwise difference. -/
def v3_sub (vl vr : V3) : V3 :=
  v3 (vl.x - vr.x) (vl.y - vr.y) (vl.z - vr.z)

/-- `v3_scale` (src/math3.js lines 81–88): componentwise scalar multiply. -/
def v3_scale (vl : V3) (nr : ℝ) : V3 :=
  v3 (vl.x * nr) (vl.y * nr) (vl.z * nr)

/-- `v3_len` (src/math3.js lines 97–100): `Math.sqrt(x*x + y*y + z*z)`. -/
noncomputable def v3_len (v : V3) : ℝ :=
  Real.sqrt (v.x * v.x + v.y * v.y + v.z * v.z)

/-- `v3_unit` (src/math3.js lines 109–117).  NOTE: in the source this
function body is syntactically incomplete — the `return v3(` call is
never closed (`);` is missing before the final `}`), which is a
JavaScript `SyntaxError`, so the source file as shipped does not parse.
The arithmetic written in the body is nevertheless unambiguous and is
what this definition embeds: each component multiplied by
`inv_len = 1.0 / v3_len(v)` (the literal `1.0` is written `1` here; they
denote the same real). -/
noncomputable def v3_unit (v : V3) : V3 :=
  let inv_len := 1 / v3_len v
  v3 (v.x * inv_len) (v.y * inv_len) (v.z * inv_len)

/-- `v3_dot` (src/math3.js lines 127–130): standard inner product. -/
def v3_dot (vl vr : V3) : ℝ :=
  vl.x * vr.x + vl.y * vr.y + vl.z * vr.z

/-- `v3_cross` — first definition (src/math3.js lines 140–147). -/
def v3_cross (vl vr : V3) : V3 :=
  v3 (vl.y * vr.z - vl.z * vr.y) (vl.z * vr.x - vl.x * vr.z)
    (vl.x * vr.y - vl.y * vr.x)

/-- The second, duplicate definition of `v3_cross` appearing under the
doc comment of matrix inversion (src/math3.js lines 246–253).  In
JavaScript the later function declaration shadows the earlier one; its
body is embedded here verbatim under a fresh name so the two can be
compared. -/
def v3_cross_dup (vl vr : V3) : V3 :=
  v3 (vl.y * vr.z - vl.z * vr.y) (vl.z * vr.x - vl.x * vr.z)
    (vl.x * vr.y - vl.y * vr.x)

/-- A 3×3 matrix as three row vectors.  Embeds the object `{x, y, z}`
built by `m3x3` (src/math3.js lines 164–171): `x` is row 0, `y` is
row 1, `z` is row 2. -/
@[ext] structure M3x3 where
  x : V3
  y : V3
  z : V3

/-- `m3x3(nxx, …, nzz)` (src/math3.js lines 164–171): packs nine scalars
into three rows in row-major order. -/
def m3x3 (nxx nxy nxz nyx nyy nyz nzx nzy nzz : ℝ) : M3x3 :=
  ⟨v3 nxx nxy nxz, v3 nyx nyy nyz, v3 nzx nzy nzz⟩

/-- `m3x3_identity` (src/math3.js lines 190–197); the source's `1.0` and
`0.0` literals are written `1` and `0`, the same reals. -/
def m3x3_identity : M3x3 :=
  m3x3 1 0 0 0 1 0 0 0 1

/-- `m3x3_transp` (src/math3.js lines 206–213): swaps rows and columns. -/
def m3x3_transp (m : M3x3) : M3x3 :=
  m3x3 m.x.x m.y.x m.z.x m.x.y m.y.y m.z.y m.x.z m.y.z m.z.z

/-- `m3x3_euler` (src/math3.js lines 224–237): Euler rotation matrix from
head, pitch, roll angles in radians. -/
noncomputable def m3x3_euler (nhead npitch nroll : ℝ) : M3x3 :=
  let SINH := Real.sin nhead
  let SINP := Real.sin npitch
  let SINR := Real.sin nroll
  let COSH := Real.cos nhead
  let COSP := Real.cos npitch
  let COSR := Real.cos nroll
  m3x3
    ((COSR * COSH) - (SINR * SINP * SINH)) (-SINR * COSP)
    ((COSR * SINH) + (SINR * SINP * COSH))
    ((SINR * COSH) + (COSR * SINP * SINH)) (COSR * COSP)
    ((SINR * SINH) - (COSR * SINP * COSH))
    (-COSP * SINH) SINP (COSP * COSH)

/-- The determinant computed inline by `m3x3_inv` (src/math3.js lines
256–259): cofactor expansion along row 0. -/
def m3x3_det (m : M3x3) : ℝ :=
  m.x.x * (m.y.y * m.z.z - m.z.y * m.y.z) -
    m.x.y * (m.y.x * m.z.z - m.y.z * m.z.x) +
    m.x.z * (m.y.x * m.z.y - m.y.y * m.z.x)

/-- `m3x3_inv` (src/math3.js lines 254–278): if the determinant is
exactly `0.0` returns the identity, otherwise the adjugate scaled by
`invdet = 1.0 / det` (literals again written `0`, `1`). -/
noncomputable def m3x3_inv (m : M3x3) : M3x3 :=
  if m3x3_det m = 0 then m3x3_identity
  else
    let invdet := 1 / m3x3_det m
    m3x3
      ((m.y.y * m.z.z - m.z.y * m.y.z) * invdet)
      ((m.x.z * m.z.y - m.x.y * m.z.z) * invdet)
      ((m.x.y * m.y.z - m.x.z * m.y.y) * invdet)
      ((m.y.z * m.z.x - m.y.x * m.z.z) * invdet)
      ((m.x.x * m.z.z - m.x.z * m.z.x) * invdet)
      ((m.y.x * m.x.z - m.x.x * m.y.z) * invdet)
      ((m.y.x * m.z.y - m.z.x * m.y.y) * invdet)
      ((m.z.x * m.x.y - m.x.x * m.z.y) * invdet)
      ((m.x.x * m.y.y - m.y.x * m.x.y) * invdet)

/-- `m3x3_mul` (src/math3.js lines 288–296): transposes the right operand
and takes row-wise dot products. -/
def m3x3_mul (ml mr : M3x3) : M3x3 :=
  let mtr := m3x3_transp mr
  m3x3
    (v3_dot ml.x mtr.x) (v3_dot ml.x mtr.y) (v3_dot ml.x mtr.z)
    (v3_dot ml.y mtr.x) (v3_dot ml.y mtr.y) (v3_dot ml.y mtr.z)
    (v3_dot ml.z mtr.x) (v3_dot ml.z mtr.y) (v3_dot ml.z mtr.z)

/-- `v3_m3x3_mul` (src/math3.js lines 306–313): applies a matrix to a
vector, one dot product per row. -/
def v3_m3x3_mul (vl : V3) (mr : M3x3) : V3 :=
  v3 (v3_dot vl mr.x) (v3_dot vl mr.y) (v3_dot vl mr.z)

/-- The Euler-matrix formula exactly as §4.2 of the spec words it
(row0, row1, row2 written out with sin/cos of head, pitch, roll), used
to compare the source's `m3x3_euler` against the spec text. -/
noncomputable def eulerRotation_specFormula (head pitch roll : ℝ) : M3x3 :=
  m3x3
    (Real.cos roll * Real.cos head - Real.sin roll * Real.sin pitch * Real.sin head)
    (-(Real.sin roll * Real.cos pitch))
    (Real.cos roll * Real.sin head + Real.sin roll * Real.sin pitch * Real.cos head)
    (Real.sin roll * Real.cos head + Real.cos roll * Real.sin pitch * Real.sin head)
    (Real.cos roll * Real.cos pitch)
    (Real.sin roll * Real.sin head - Real.cos roll * Real.sin pitch * Real.cos head)
    (-(Real.cos pitch * Real.sin head))
    (Real.sin pitch)
    (Real.cos pitch * Real.cos head)

/-- The determinant of every Euler rotation matrix is 1. -/
theorem m3x3_det_euler (h p r : ℝ) : m3x3_det (m3x3_euler h p r) = 1 := by
  simp only [m3x3_euler, m3x3_det, m3x3, v3]
  have hh := Real.sin_sq_add_cos_sq h
  have hp := Real.sin_sq_add_cos_sq p
  have hr := Real.sin_sq_add_cos_sq r
  linear_combination
    ((Real.sin p ^ 2 + Real.cos p ^ 2) * (Real.sin r ^ 2 + Real.cos r ^ 2)) * hh +
      (Real.sin r ^ 2 + Real.cos r ^ 2) * hp + hr

/-- C1: for every matrix whose determinant (cofactor expansion along
row 0) is nonzero, `m3x3_mul (m3x3_inv m) m` is exactly the identity
matrix over exact real arithmetic. -/
theorem c1_inv_mul_cancel (m : M3x3) (hdet : m3x3_det m ≠ 0) :
    m3x3_mul (m3x3_inv m) m = m3x3_identity := by
  simp only [m3x3_inv, if_neg hdet]
  ext <;>
    simp only [m3x3_mul, m3x3_transp, m3x3, v3, v3_dot, m3x3_identity] <;>
    field_simp <;>
    simp only [m3x3_det] at hdet ⊢ <;>
    ring

/-- C1 witness: the Euler matrix for angles (0.3, 0.1, -0.2) has nonzero
determinant and its inverse composed with it is the identity. -/
theorem c1_witness :
    m3x3_det (m3x3_euler 0.3 0.1 (-0.2)) ≠ 0 ∧
      m3x3_mul (m3x3_inv (m3x3_euler 0.3 0.1 (-0.2))) (m3x3_euler 0.3 0.1 (-0.2)) =
        m3x3_identity :=
  have hd : m3x3_det (m3x3_euler 0.3 0.1 (-0.2)) ≠ 0 := by
    rw [m3x3_det_euler]; norm_num
  ⟨hd, c1_inv_mul_cancel _ hd⟩

/-- C2 counterexample: applying `eulerRotation(π/2, 0, 0)` to (1,0,0)
does NOT give (0, -1, 0); the code computes (0, 0, -1). -/
theorem c2_counterexample :
    v3_m3x3_mul (v3 1 0 0) (m3x3_euler (Real.pi / 2) 0 0) ≠ v3 0 (-1) 0 := by
  intro hEq
  have hy := congrArg V3.y hEq
  simp only [v3_m3x3_mul, v3_dot, m3x3_euler, m3x3, v3, Real.sin_pi_div_two,
    Real.cos_pi_div_two, Real.sin_zero, Real.cos_zero] at hy
  norm_num at hy

/-- C2 (amended): `transformVector((1,0,0), eulerRotation(π/2,0,0))`
equals (0, 0, -1), and `transformVector((1,0,0), identity())` equals
(1,0,0). -/
theorem c2_transform_golden :
    v3_m3x3_mul (v3 1 0 0) (m3x3_euler (Real.pi / 2) 0 0) = v3 0 0 (-1) ∧
      v3_m3x3_mul (v3 1 0 0) m3x3_identity = v3 1 0 0 := by
  constructor <;>
    ext <;>
    simp only [v3_m3x3_mul, v3_dot, m3x3_euler, m3x3_identity, m3x3, v3,
      Real.sin_pi_div_two, Real.cos_pi_div_two, Real.sin_zero, Real.cos_zero] <;>
    norm_num

/-- C3: for every vector of nonzero length, `v3_unit` scales the vector
by the reciprocal of its length, and the result has length 1.  (The
source's `v3_unit` is syntactically broken — see the definition's note —
so this is proved about the arithmetic the body writes.) -/
theorem c3_unit_normalizes (v : V3) (h : v3_len v ≠ 0) :
    v3_unit v = v3_scale v (1 / v3_len v) ∧ v3_len (v3_unit v) = 1 := by
  have hnn : (0 : ℝ) ≤ v.x * v.x + v.y * v.y + v.z * v.z :=
    add_nonneg (add_nonneg (mul_self_nonneg _) (mul_self_nonneg _)) (mul_self_nonneg _)
  have hmul : v3_len v * v3_len v = v.x * v.x + v.y * v.y + v.z * v.z :=
    Real.mul_self_sqrt hnn
  constructor
  · ext <;> norm_num [v3_unit, v3_scale, v3]
  · have hinner :
        (v3_unit v).x * (v3_unit v).x + (v3_unit v).y * (v3_unit v).y +
          (v3_unit v).z * (v3_unit v).z = 1 := by
      simp only [v3_unit, v3]
      field_simp
      linear_combination -hmul
    simp only [v3_len, hinner, Real.sqrt_one]

/-- C3 witness: at v = (3,4,0), whose length is 5, the unit vector is the
scaling by 1/5, has length 1, and equals (0.6, 0.8, 0.0). -/
theorem c3_witness :
    v3_len (v3 3 4 0) ≠ 0 ∧
      (v3_unit (v3 3 4 0) = v3_scale (v3 3 4 0) (1 / v3_len (v3 3 4 0)) ∧
        v3_len (v3_unit (v3 3 4 0)) = 1) ∧
      v3_unit (v3 3 4 0) = v3 0.6 0.8 0 := by
  have h5 : v3_len (v3 3 4 0) = 5 := by
    simp only [v3_len, v3]
    rw [show (3 : ℝ) * 3 + 4 * 4 + 0 * 0 = 5 ^ 2 by norm_num]
    exact Real.sqrt_sq (by norm_num)
  have hne : v3_len (v3 3 4 0) ≠ 0 := by rw [h5]; norm_num
  refine ⟨hne, c3_unit_normalizes _ hne, ?_⟩
  have h1 := (c3_unit_normalizes _ hne).1
  rw [h1, h5]
  ext <;> norm_num [v3_scale, v3]

/-- C4: the Euler matrix built by the code has exactly the entries of the
fixed formula stated in §4.2 of the spec, and the zero-angle Euler
matrix is the identity. -/
theorem c4_euler_formula (h p r : ℝ) :
    m3x3_euler h p r = eulerRotation_specFormula h p r ∧
      m3x3_euler 0 0 0 = m3x3_identity := by
  constructor
  · ext <;>
      simp only [m3x3_euler, eulerRotation_specFormula, m3x3, v3] <;>
      ring
  · ext <;>
      simp only [m3x3_euler, m3x3_identity, m3x3, v3, Real.sin_zero, Real.cos_zero] <;>
      norm_num

/-- C5: every matrix with determinant exactly 0 is "inverted" to the
identity matrix. -/
theorem c5_singular_fallback (m : M3x3) (h : m3x3_det m = 0) :
    m3x3_inv m = m3x3_identity := by
  simp only [m3x3_inv, if_pos h]

/-- C5 witness: the all-zeros matrix has determinant 0 and inverts to the
identity. -/
theorem c5_witness :
    m3x3_det (m3x3 0 0 0 0 0 0 0 0 0) = 0 ∧
      m3x3_inv (m3x3 0 0 0 0 0 0 0 0 0) = m3x3_identity :=
  have h0 : m3x3_det (m3x3 0 0 0 0 0 0 0 0 0) = 0 := by
    norm_num [m3x3_det, m3x3, v3]
  ⟨h0, c5_singular_fallback _ h0⟩

/-- C7: the cross product is anticommutative and orthogonal to both of
its inputs, and takes the stated values on the standard basis pairs. -/
theorem c7_cross_props (l r : V3) :
    v3_cross l r = v3_scale (v3_cross r l) (-1) ∧
      v3_dot (v3_cross l r) l = 0 ∧ v3_dot (v3_cross l r) r = 0 ∧
      v3_cross (v3 1 0 0) (v3 0 1 0) = v3 0 0 1 ∧
      v3_cross (v3 0 1 0) (v3 1 0 0) = v3 0 0 (-1) := by
  refine ⟨?_, ?_, ?_, ?_, ?_⟩
  · ext <;>
      simp only [v3_cross, v3_scale, v3] <;>
      ring
  · simp only [v3_cross, v3_dot, v3]
    ring
  · simp only [v3_cross, v3_dot, v3]
    ring
  · ext <;> norm_num [v3_cross, v3]
  · ext <;> norm_num [v3_cross, v3]

/-- C8: the identity matrix is a two-sided multiplicative identity for
`m3x3_mul`, exactly over the reals. -/
theorem c8_identity_two_sided (m : M3x3) :
    m3x3_mul m3x3_identity m = m ∧ m3x3_mul m m3x3_identity = m := by
  constructor <;>
    ext <;>
    simp only [m3x3_mul, m3x3_identity, m3x3_transp, m3x3, v3, v3_dot] <;>
    norm_num

/-- C9: the two textual definitions of the cross product in the source
(lines 140–147 and lines 246–253) are extensionally equal. -/
theorem c9_cross_definitions_agree (l r : V3) : v3_cross l r = v3_cross_dup l r :=
  rfl

/-- C10: each row of a matrix product is the vector transform of the
corresponding row of the left operand by the transposed right operand. -/
theorem c10_mul_rowwise (l r : M3x3) :
    (m3x3_mul l r).x = v3_m3x3_mul l.x (m3x3_transp r) ∧
      (m3x3_mul l r).y = v3_m3x3_mul l.y (m3x3_transp r) ∧
      (m3x3_mul l r).z = v3_m3x3_mul l.z (m3x3_transp r) :=
  ⟨rfl, rfl, rfl⟩
